import Mathlib

/-!
Verification of the request-to-audio orchestration layer of a TTS web service.

Float samples are embedded as rationals; machine integer conversions are made
explicit (truncation toward zero, two-complement byte encoding).  External
DSP routines (librosa, scipy) and the external model `generate` calls are
parameters of the embedding; everything the repository itself computes is
translated directly from the Python source.
-/

namespace PyVS

/-! ## Configuration constants (src/app/config.py) -/

def MAX_TEXT_LENGTH : ℕ := 5000
def MAX_CACHED_AUDIO : ℕ := 100
def AUDIO_CACHE_TTL_SECONDS : ℤ := 3600
def MAX_EXAGGERATION : ℚ := 2

/-! ## Numeric helpers: Python truncation semantics -/

/-- Python `int(x)` on a float: truncation toward zero. -/
def truncQ (x : ℚ) : ℤ := if 0 ≤ x then ⌊x⌋ else ⌈x⌉

/-! ## PCM conversion (src/app/routes/tts.py, streaming generators)

`np.clip(chunk * 32767, -32768, 32767).astype(np.int16)` followed by
`.tobytes()` (little-endian int16). -/

/-- One float sample to an int16 value: scale by 32767, clip to the int16
range, then truncate toward zero (`astype(np.int16)` on an in-range float). -/
def i16 (x : ℚ) : ℤ := truncQ (min 32767 (max (-32768) (x * 32767)))

/-- Two-complement little-endian encoding of an int16 value as two bytes. -/
def le16 (n : ℤ) : List ℕ := [(n % 65536).toNat % 256, (n % 65536).toNat / 256]

/-- Decode two little-endian bytes back to a signed int16 value. -/
def decodeLe16 (bs : List ℕ) : ℤ :=
  match bs with
  | [lo, hi] => let u : ℤ := (lo : ℤ) + 256 * (hi : ℤ); if u < 32768 then u else u - 65536
  | _ => 0

/-- PCM byte stream of a float waveform (the conversion the streaming
generators apply per chunk). -/
def pcmBytesOf (w : List ℚ) : List ℕ := w.flatMap (fun x => le16 (i16 x))

/-! ## Chunking (src/app/services/tts_service.py, `_chunk_audio`) -/

/-- Slices `wav[i:i+k]` for i = 0, k, 2k, ...; faithful to the Python loop
for every k ≥ 1 (the caller passes `max(int(sr*100/1000), 1)`). -/
def chunksOf (k : ℕ) : List ℚ → List (List ℚ)
  | [] => []
  | x :: xs => (x :: xs.take (k - 1)) :: chunksOf k (xs.drop (k - 1))
termination_by l => l.length
decreasing_by
  simp only [List.length_cons, List.length_drop]
  omega

/-- `_chunk_audio`: 100 ms chunks, each paired with the sample rate. -/
def chunk_audio (wav : List ℚ) (sr : ℕ) : List (List ℚ × ℕ) :=
  (chunksOf (max (sr * 100 / 1000) 1) wav).map (fun c => (c, sr))

theorem chunksOf_flatten (k : ℕ) : ∀ w : List ℚ, (chunksOf k w).flatten = w := by
  intro w
  induction w using chunksOf.induct k with
  | case1 => simp [chunksOf]
  | case2 x xs ih =>
      rw [chunksOf]
      simp only [List.flatten_cons, ih, List.cons_append]
      rw [List.take_append_drop]

theorem flatten_map_flatMap (f : ℚ → List ℕ) (cs : List (List ℚ)) :
    (cs.map (fun c => c.flatMap f)).flatten = cs.flatten.flatMap f := by
  induction cs with
  | nil => simp
  | cons h t ih => simp [ih]

/-- claim C8 helper: clip-then-truncate equals truncate-then-clamp. -/
theorem i16_eq_clamp_trunc (x : ℚ) :
    i16 x = max (-32768) (min 32767 (truncQ (x * 32767))) := by
  set y := x * 32767 with hy
  rcases lt_or_le y (-32768) with hlow | h1
  · have hmax : max (-32768 : ℚ) y = -32768 := max_eq_left hlow.le
    have hmin : min (32767 : ℚ) (-32768) = -32768 := by norm_num
    have hty : truncQ y ≤ -32768 := by
      have hy0 : ¬ (0 ≤ y) := by linarith
      simp only [truncQ, hy0, if_false]
      exact Int.ceil_le.mpr (by exact_mod_cast hlow.le)
    have h2 : min (32767 : ℤ) (truncQ y) = truncQ y := min_eq_right (by omega)
    have h3 : max (-32768 : ℤ) (truncQ y) = -32768 := max_eq_left hty
    simp only [i16, hmax, hmin, h2, h3]
    norm_num [truncQ]
    have h5 : ((-32768 : ℤ) : ℚ) = (-32768 : ℚ) := by norm_num
    rw [← h5, Int.ceil_intCast]
  · rcases le_or_lt y 32767 with h2 | hhigh
    · have hclip : min (32767 : ℚ) (max (-32768) y) = y := by
        rw [max_eq_right h1, min_eq_right h2]
      have hbound : -32768 ≤ truncQ y ∧ truncQ y ≤ 32767 := by
        by_cases hy0 : 0 ≤ y
        · simp only [truncQ, hy0, if_true]
          constructor
          · have : (0 : ℤ) ≤ ⌊y⌋ := Int.floor_nonneg.mpr hy0
            omega
          · have : ⌊y⌋ ≤ ⌊(32767 : ℚ)⌋ := Int.floor_le_floor h2
            simpa using this
        · simp only [truncQ, hy0, if_false]
          constructor
          · have : ⌈(-32768 : ℚ)⌉ ≤ ⌈y⌉ := Int.ceil_le_ceil h1
            simpa using this
          · have : ⌈y⌉ ≤ 0 := Int.ceil_le.mpr (by push_cast; linarith)
            omega
      rw [i16, hclip, min_eq_right hbound.2, max_eq_right hbound.1]
    · have hmax : max (-32768 : ℚ) y = y := max_eq_right (by linarith)
      have hmin : min (32767 : ℚ) y = 32767 := min_eq_left hhigh.le
      have hty : 32767 ≤ truncQ y := by
        have hy0 : (0 : ℚ) ≤ y := by linarith
        simp only [truncQ, hy0, if_true]
        exact Int.le_floor.mpr (by exact_mod_cast hhigh.le)
      have h3 : min (32767 : ℤ) (truncQ y) = 32767 := min_eq_left hty
      have h4 : max (-32768 : ℤ) (32767 : ℤ) = 32767 := by norm_num
      simp only [i16, hmax, hmin, h3, h4]
      simp [truncQ]
theorem truncQ_intCast (z : ℤ) : truncQ (z : ℚ) = z := by
  by_cases h : (0 : ℚ) ≤ (z : ℚ)
  · simp [truncQ, h]
  · simp [truncQ, h]

theorem le16_decode (n : ℤ) (h1 : -32768 ≤ n) (h2 : n ≤ 32767) :
    decodeLe16 (le16 n) = n := by
  simp only [le16, decodeLe16]
  push_cast
  omega

theorem i16_bounds (x : ℚ) : -32768 ≤ i16 x ∧ i16 x ≤ 32767 := by
  rw [i16_eq_clamp_trunc]
  omega

/-- claim C8: for every floating-point sample x in a streamed chunk, the
emitted 16-bit little-endian PCM value equals x scaled by 32767 and clipped
to the representable int16 range [-32768, 32767]; out-of-range products are
clipped to the nearest bound (never wrapped), and the two emitted bytes
decode back to exactly that value. -/
theorem claim_C8_pcm_sample_clipped_not_wrapped (x : ℚ) :
    i16 x = max (-32768) (min 32767 (truncQ (x * 32767)))
    ∧ -32768 ≤ i16 x ∧ i16 x ≤ 32767
    ∧ decodeLe16 (le16 (i16 x)) = i16 x
    ∧ i16 2 = 32767 ∧ i16 (-2) = -32768 := by
  refine ⟨i16_eq_clamp_trunc x, (i16_bounds x).1, (i16_bounds x).2,
    le16_decode _ (i16_bounds x).1 (i16_bounds x).2, ?_, ?_⟩
  · have : ((2 : ℚ) * 32767) = 65534 := by norm_num
    rw [i16, this]
    have hmax : max (-32768 : ℚ) 65534 = 65534 := by norm_num
    have hmin : min (32767 : ℚ) 65534 = 32767 := by norm_num
    rw [hmax, hmin]
    norm_num [truncQ]
  · have : ((-2 : ℚ) * 32767) = -65534 := by norm_num
    rw [i16, this]
    have hmax : max (-32768 : ℚ) (-65534) = -32768 := by norm_num
    have hmin : min (32767 : ℚ) (-32768) = -32768 := by norm_num
    rw [hmax, hmin]
    norm_num [truncQ]
    have h5 : ((-32768 : ℤ) : ℚ) = (-32768 : ℚ) := by norm_num
    rw [← h5, Int.ceil_intCast]

/-! ## Post-processing chain (src/app/services/audio_utils.py) -/

/-- Valid output sample rates (`VALID_SAMPLE_RATES`). -/
def VALID_SAMPLE_RATES : List ℕ := [8000, 16000, 22050, 24000, 44100, 48000]

/-- The `volume_normalize` option: a JSON boolean or an explicit numeric
LUFS target (Python accepts both; `True` maps to the default target). -/
inductive VolOpt where
  | b (v : Bool)
  | num (q : ℚ)
deriving DecidableEq, Repr

/-- The recognized post-processing option keys; a `none` field models an
absent dictionary key. -/
structure PPOptions where
  pitch_shift : Option ℚ
  speed : Option ℚ
  volume_normalize : Option VolOpt
  sample_rate : Option ℕ
deriving DecidableEq, Repr

/-- An options dictionary with none of the recognized keys. -/
def emptyPP : PPOptions := ⟨none, none, none, none⟩

/-- External DSP collaborators (librosa / scipy / real powers of ten); the
repository only wraps these, so they are parameters of the embedding. -/
structure ExternalDSP where
  librosaPitch : List ℚ → ℕ → ℚ → List ℚ
  librosaStretch : List ℚ → ℚ → List ℚ
  scipyResample : List ℚ → ℕ → List ℚ
  pow10 : ℚ → ℚ

/-- A concrete instantiation of the external DSP collaborators, used to
evaluate the embedding on closed inputs. -/
def trivialDSP : ExternalDSP :=
  ⟨fun w _ _ => w, fun w _ => w, fun w _ => w, fun _ => 1⟩

/-- `pitch_shift(wav, sr, n_steps)`: identity inside the epsilon band,
otherwise the external librosa shift (sample rate unchanged). -/
def pitch_shift (E : ExternalDSP) (wav : List ℚ) (sr : ℕ) (n_steps : ℚ) :
    List ℚ × ℕ :=
  if |n_steps| < 1/100 then (wav, sr) else (E.librosaPitch wav sr n_steps, sr)

/-- `time_stretch(wav, sr, rate)`: identity inside the epsilon band,
otherwise the external librosa stretch (sample rate unchanged). -/
def time_stretch (E : ExternalDSP) (wav : List ℚ) (sr : ℕ) (rate : ℚ) :
    List ℚ × ℕ :=
  if |rate - 1| < 1/100 then (wav, sr) else (E.librosaStretch wav rate, sr)

/-- `np.max(np.abs(wav))` over a nonempty waveform; 0 on the empty one
(numpy raises there; no claim exercises that corner). -/
def peakAbs (wav : List ℚ) : ℚ := wav.foldl (fun a x => max a |x|) 0

/-- `normalize_volume(wav, target_lufs)`: peak-based scaling toward an
approximate loudness target; a near-zero signal is returned unchanged. -/
def normalize_volume (E : ExternalDSP) (wav : List ℚ) (target_lufs : ℚ) :
    List ℚ :=
  let peak := peakAbs wav
  if peak < 1/100000000 then wav
  else
    let target_peak := min (E.pow10 (target_lufs / 20)) (99/100)
    wav.map (fun x => x * (target_peak / peak))

/-- `resample_audio(wav, sr, target_sr)`: no-op at the same rate, otherwise
the external scipy resample to `round(len(wav) * target_sr / sr)` samples. -/
def resample_audio (E : ExternalDSP) (wav : List ℚ) (sr target_sr : ℕ) :
    List ℚ × ℕ :=
  if sr = target_sr then (wav, target_sr)
  else
    (E.scipyResample wav (round ((wav.length * target_sr : ℚ) / sr)).toNat,
     target_sr)

/-- `apply_post_processing(wav, sr, options)`: pitch, then speed, then
volume normalization, then resample; `none` models both an absent and an
empty (falsy) options dictionary, and each stage guard mirrors the Python
truthiness-plus-epsilon test on the corresponding key. -/
def apply_post_processing (E : ExternalDSP) (wav : List ℚ) (sr : ℕ)
    (options : Option PPOptions) : List ℚ × ℕ :=
  match options with
  | none => (wav, sr)
  | some o =>
    let n := o.pitch_shift.getD 0
    let p1 := if n ≠ 0 ∧ 1/100 ≤ |n| then pitch_shift E wav sr n else (wav, sr)
    let spd := o.speed.getD 1
    let p2 := if spd ≠ 0 ∧ 1/100 ≤ |spd - 1| then time_stretch E p1.1 p1.2 spd else p1
    let w3 := match o.volume_normalize with
      | none => p2.1
      | some (VolOpt.b false) => p2.1
      | some (VolOpt.b true) => normalize_volume E p2.1 (-16)
      | some (VolOpt.num q) =>
          normalize_volume E p2.1 (if q < 0 then q else -16)
    match o.sample_rate with
    | some t =>
        if t ≠ 0 ∧ t ≠ p2.2 ∧ t ∈ VALID_SAMPLE_RATES
        then resample_audio E w3 p2.2 t else (w3, p2.2)
    | none => (w3, p2.2)

/-- claim C4: applying the post-processing chain with an absent/empty option
set (the Python falsy dictionary, and equally a dictionary carrying none of
the recognized keys) returns the (waveform, sample rate) pair unchanged,
for every choice of external DSP collaborators. -/
theorem claim_C4_empty_post_processing_identity (E : ExternalDSP)
    (wav : List ℚ) (sr : ℕ) :
    apply_post_processing E wav sr none = (wav, sr)
    ∧ apply_post_processing E wav sr (some emptyPP) = (wav, sr) := by
  constructor
  · rfl
  · simp [apply_post_processing, emptyPP]

/-! ## Streaming vs single-shot delivery (src/app/routes/tts.py)

Both paths receive the same fixed model output `(w, sr)` and the same
options; the single-shot route post-processes and hands the waveform to the
external WAV writer, the streaming route post-processes, chunks, converts
each chunk to int16 PCM and yields the bytes (header first, sentinel last). -/

/-- Modelled from the spec: the body of the WAV container written by the
external writer (`soundfile.write`, out of scope per the spec) is the
16-bit little-endian PCM serialization of the samples (spec sections 4.6
and 6, audio container boundary: mono, fixed bit depth 16). -/
def singleShotWavBody (E : ExternalDSP) (w : List ℚ) (sr : ℕ)
    (opts : Option PPOptions) : List ℕ :=
  let r := apply_post_processing E w sr opts
  pcmBytesOf r.1

/-- The concatenation of all audio chunks the streaming generator emits
(excluding the WAV header and the trailing sentinel marker): the
post-processed waveform is cut into 100 ms chunks and each chunk is
converted to int16 PCM bytes. -/
def streamedAudioBytes (E : ExternalDSP) (w : List ℚ) (sr : ℕ)
    (opts : Option PPOptions) : List ℕ :=
  let r := apply_post_processing E w sr opts
  ((chunk_audio r.1 r.2).map (fun c => pcmBytesOf c.1)).flatten

/-- claim C1: for every fixed model output and option set (and every choice
of external DSP collaborators), concatenating all audio chunks emitted by
the streaming path, excluding the trailing sentinel marker, reconstructs
PCM byte-identical to the WAV body of the non-streaming single-shot path. -/
theorem claim_C1_stream_concat_eq_single_shot (E : ExternalDSP) (w : List ℚ)
    (sr : ℕ) (opts : Option PPOptions) :
    streamedAudioBytes E w sr opts = singleShotWavBody E w sr opts := by
  unfold streamedAudioBytes singleShotWavBody chunk_audio
  dsimp only
  rw [List.map_map]
  have hcomp :
      ((fun c : List ℚ × ℕ => pcmBytesOf c.1) ∘
        (fun c : List ℚ => (c, (apply_post_processing E w sr opts).2))
        : List ℚ → List ℕ) = fun c => pcmBytesOf c := rfl
  rw [hcomp]
  simp only [pcmBytesOf]
  rw [flatten_map_flatMap, chunksOf_flatten]

/-! ## Audio job cache (src/app/routes/tts.py, `_cache_audio` /
`get_cached_audio` over an `OrderedDict` guarded by a mutex; the embedding
is the state transformer each call applies under the lock) -/

/-- One cached job: waveform, sample rate, creation timestamp. -/
structure CacheEntry where
  wav : List ℚ
  sr : ℕ
  ts : ℤ
deriving DecidableEq, Repr

/-- The `OrderedDict` in insertion order: oldest-inserted first; assigning
to an existing key keeps its position. -/
abbrev Cache := List (String × CacheEntry)

/-- `_generated_audio[job_id] = v`: overwrite in place, or append at the
end (newest position) for a fresh key. -/
def cacheInsert (cache : Cache) (id : String) (v : CacheEntry) : Cache :=
  if cache.any (fun p => p.1 == id)
  then cache.map (fun p => if p.1 == id then (id, v) else p)
  else cache ++ [(id, v)]

/-- The sweep inside `_cache_audio`: delete every entry whose age exceeds
the TTL. -/
def sweepExpired (cache : Cache) (now : ℤ) : Cache :=
  cache.filter (fun p => decide (¬ (AUDIO_CACHE_TTL_SECONDS < now - p.2.ts)))

/-- `while len(_generated_audio) > MAX_CACHED_AUDIO: popitem(last=False)`:
drop oldest-inserted entries until at or under capacity. -/
def evictOldest (cache : Cache) : Cache :=
  if MAX_CACHED_AUDIO < cache.length then evictOldest cache.tail else cache
termination_by cache.length
decreasing_by
  simp only [List.length_tail]
  omega

/-- `_cache_audio(job_id, wav, sr)` at time `now`: insert/overwrite, sweep
expired entries, then evict down to capacity. -/
def cache_audio (cache : Cache) (id : String) (wav : List ℚ) (sr : ℕ)
    (now : ℤ) : Cache :=
  evictOldest (sweepExpired (cacheInsert cache id ⟨wav, sr, now⟩) now)

/-- `_generated_audio.get(job_id)`. -/
def cacheLookup (cache : Cache) (id : String) : Option CacheEntry :=
  (cache.find? (fun p => p.1 == id)).map (fun p => p.2)

/-- `del _generated_audio[job_id]`. -/
def cacheErase (cache : Cache) (id : String) : Cache :=
  cache.eraseP (fun p => p.1 == id)

/-- `get_cached_audio(job_id)` at time `now`: returns the result and the
cache state after the call. -/
def get_cached_audio (cache : Cache) (id : String) (now : ℤ) :
    Option (List ℚ × ℕ) × Cache :=
  match cacheLookup cache id with
  | none => (none, cache)
  | some e =>
      if AUDIO_CACHE_TTL_SECONDS < now - e.ts
      then (none, cacheErase cache id)
      else (some (e.wav, e.sr), cache)

theorem evictOldest_length_le (cache : Cache) :
    (evictOldest cache).length ≤ MAX_CACHED_AUDIO := by
  induction cache using evictOldest.induct with
  | case1 c h ih => rw [evictOldest, if_pos h]; exact ih
  | case2 c h => rw [evictOldest, if_neg h]; omega

theorem evictOldest_all (p : String × CacheEntry → Bool) (cache : Cache)
    (h : cache.all p = true) : (evictOldest cache).all p = true := by
  induction cache using evictOldest.induct with
  | case1 c hc ih =>
      rw [evictOldest, if_pos hc]
      exact ih (by
        cases c with
        | nil => simp [List.all_nil]
        | cons x xs =>
            rw [List.all_cons, Bool.and_eq_true] at h
            exact h.2)
  | case2 c hc => rw [evictOldest, if_neg hc]; exact h

/-- claim C2: every `put` into the audio job cache first inserts or
overwrites the entry, then removes everything older than the TTL, then
evicts oldest-inserted entries; consequently, whatever the prior state,
after any `put` at most `MAX_CACHED_AUDIO` entries survive and every
surviving entry has age at most the TTL. -/
theorem claim_C2_cache_put_capacity_and_ttl (cache : Cache) (id : String)
    (wav : List ℚ) (sr : ℕ) (now : ℤ) :
    (cache_audio cache id wav sr now).length ≤ MAX_CACHED_AUDIO
    ∧ (cache_audio cache id wav sr now).all
        (fun p => decide (now - p.2.ts ≤ AUDIO_CACHE_TTL_SECONDS)) = true := by
  constructor
  · exact evictOldest_length_le _
  · apply evictOldest_all
    rw [List.all_eq_true]
    intro p hp
    have := List.of_mem_filter hp
    simp only [decide_eq_true_eq] at this ⊢
    omega

/-- claim C3: `get` on a present entry returns not-found and removes the
entry whenever its age strictly exceeds the TTL at retrieval time, even if
never swept; a successful `get` returns the waveform and sample rate and
leaves the cache, hence the timestamp and the eviction position of the
entry, entirely unchanged. -/
theorem claim_C3_cache_get_expiry_and_no_refresh (cache : Cache)
    (id : String) (now : ℤ) (e : CacheEntry)
    (h : cacheLookup cache id = some e) :
    (AUDIO_CACHE_TTL_SECONDS < now - e.ts →
      get_cached_audio cache id now = (none, cacheErase cache id))
    ∧ (now - e.ts ≤ AUDIO_CACHE_TTL_SECONDS →
      get_cached_audio cache id now = (some (e.wav, e.sr), cache)) := by
  constructor
  · intro hexp
    simp [get_cached_audio, h, hexp]
  · intro hfresh
    have : ¬ (AUDIO_CACHE_TTL_SECONDS < now - e.ts) := by omega
    simp [get_cached_audio, h, this]

theorem claim_C3_cache_get_expiry_and_no_refresh_witness :
    cacheLookup [("a", (⟨[], 1, 0⟩ : CacheEntry))] "a" = some ⟨[], 1, 0⟩
    ∧ get_cached_audio [("a", (⟨[], 1, 0⟩ : CacheEntry))] "a" 10000
        = (none, cacheErase [("a", (⟨[], 1, 0⟩ : CacheEntry))] "a")
    ∧ get_cached_audio [("a", (⟨[], 1, 0⟩ : CacheEntry))] "a" 100
        = (some ([], 1), [("a", (⟨[], 1, 0⟩ : CacheEntry))]) :=
  ⟨by decide,
   (claim_C3_cache_get_expiry_and_no_refresh _ "a" 10000 ⟨[], 1, 0⟩
     (by decide)).1 (by decide),
   (claim_C3_cache_get_expiry_and_no_refresh _ "a" 100 ⟨[], 1, 0⟩
     (by decide)).2 (by decide)⟩

/-! ## Numeric-control validation (src/app/routes/tts.py,
`_extract_inference_params`) and the legacy Chatterbox clamping path
(src/app/routes/chatterbox.py, `_extract_chatterbox_params`).  Request
values are embedded as rationals, so the Python branches that reject
non-numeric input are unreachable in the embedding and are not modelled. -/

/-- Main-endpoint request fields (a `none` field models an absent or null
JSON key). -/
structure InfInput where
  temperature : Option ℚ
  top_k : Option ℚ
  top_p : Option ℚ
  repetition_penalty : Option ℚ
deriving DecidableEq, Repr

/-- Validated inference parameters. -/
structure InfParams where
  temperature : Option ℚ
  top_k : Option ℤ
  top_p : Option ℚ
  repetition_penalty : Option ℚ
deriving DecidableEq, Repr

def checkTemperature : Option ℚ → Except String (Option ℚ)
  | none => .ok none
  | some v =>
      if 1/10 ≤ v ∧ v ≤ 2 then .ok (some v)
      else .error "temperature must be between 0.1 and 2.0"

def checkTopK : Option ℚ → Except String (Option ℤ)
  | none => .ok none
  | some x =>
      let v := truncQ x
      if 1 ≤ v ∧ v ≤ 200 then .ok (some v)
      else .error "top_k must be between 1 and 200"

def checkTopP : Option ℚ → Except String (Option ℚ)
  | none => .ok none
  | some v =>
      if 0 ≤ v ∧ v ≤ 1 then .ok (some v)
      else .error "top_p must be between 0.0 and 1.0"

def checkRepetitionPenalty : Option ℚ → Except String (Option ℚ)
  | none => .ok none
  | some v =>
      if 1 ≤ v ∧ v ≤ 2 then .ok (some v)
      else .error "repetition_penalty must be between 1.0 and 2.0"

/-- `_extract_inference_params(data)`: validate the four sampling controls
in source order, rejecting the first out-of-range one with a field-naming
message; `return params or None` maps an all-absent result to `none`. -/
def extract_inference_params (d : InfInput) :
    Except String (Option InfParams) :=
  match checkTemperature d.temperature with
  | .error e => .error e
  | .ok t =>
    match checkTopK d.top_k with
    | .error e => .error e
    | .ok k =>
      match checkTopP d.top_p with
      | .error e => .error e
      | .ok p =>
        match checkRepetitionPenalty d.repetition_penalty with
        | .error e => .error e
        | .ok r =>
          .ok (if t.isNone && k.isNone && p.isNone && r.isNone then none
               else some ⟨t, k, p, r⟩)

/-- Chatterbox request fields. -/
structure ChatterInput where
  exaggeration : Option ℚ
  cfg_weight : Option ℚ
  temperature : Option ℚ
  repetition_penalty : Option ℚ
  min_p : Option ℚ
  top_p : Option ℚ
deriving DecidableEq, Repr

/-- Clamped Chatterbox generation parameters. -/
structure ChatterParams where
  exaggeration : ℚ
  cfg_weight : ℚ
  temperature : ℚ
  repetition_penalty : Option ℚ
  min_p : Option ℚ
  top_p : Option ℚ
deriving DecidableEq, Repr

/-- `_extract_chatterbox_params(data)`: every control is clamped into its
range (with defaults 0.5 / 0.5 / 0.8) instead of being rejected; the
function is total on numeric input, so the request always proceeds. -/
def extract_chatterbox_params (d : ChatterInput) : ChatterParams :=
  ⟨max 0 (min (d.exaggeration.getD (1/2)) MAX_EXAGGERATION),
   max 0 (min 1 (d.cfg_weight.getD (1/2))),
   max (1/20) (min 2 (d.temperature.getD (4/5))),
   d.repetition_penalty.map (fun v => max 1 (min 3 v)),
   d.min_p.map (fun v => max 0 (min 1 v)),
   d.top_p.map (fun v => max 0 (min 1 v))⟩

/-- claim C7: validation is asymmetric by endpoint.  On the main TTS
endpoints an out-of-range temperature, top_k, top_p or repetition_penalty
is rejected with an error naming the field; on the legacy Chatterbox path
exaggeration, cfg_weight and temperature are instead clamped into their
ranges for every input and the request proceeds. -/
theorem claim_C7_validation_asymmetry (vt vk vp vr : ℚ) (dC : ChatterInput)
    (ht : ¬ (1/10 ≤ vt ∧ vt ≤ 2))
    (hk : ¬ (1 ≤ truncQ vk ∧ truncQ vk ≤ 200))
    (hp : ¬ (0 ≤ vp ∧ vp ≤ 1))
    (hr : ¬ (1 ≤ vr ∧ vr ≤ 2)) :
    extract_inference_params ⟨some vt, none, none, none⟩
        = .error "temperature must be between 0.1 and 2.0"
    ∧ extract_inference_params ⟨none, some vk, none, none⟩
        = .error "top_k must be between 1 and 200"
    ∧ extract_inference_params ⟨none, none, some vp, none⟩
        = .error "top_p must be between 0.0 and 1.0"
    ∧ extract_inference_params ⟨none, none, none, some vr⟩
        = .error "repetition_penalty must be between 1.0 and 2.0"
    ∧ (0 ≤ (extract_chatterbox_params dC).exaggeration
        ∧ (extract_chatterbox_params dC).exaggeration ≤ MAX_EXAGGERATION)
    ∧ (0 ≤ (extract_chatterbox_params dC).cfg_weight
        ∧ (extract_chatterbox_params dC).cfg_weight ≤ 1)
    ∧ (1/20 ≤ (extract_chatterbox_params dC).temperature
        ∧ (extract_chatterbox_params dC).temperature ≤ 2) := by
  refine ⟨?_, ?_, ?_, ?_, ?_, ?_, ?_⟩
  · have hT : checkTemperature (some vt)
        = .error "temperature must be between 0.1 and 2.0" := by
      dsimp only [checkTemperature]
      exact if_neg ht
    simp [extract_inference_params, hT]
  · have hK : checkTopK (some vk) = .error "top_k must be between 1 and 200" := by
      dsimp only [checkTopK]
      exact if_neg hk
    simp [extract_inference_params, checkTemperature, hK]
  · have hP : checkTopP (some vp) = .error "top_p must be between 0.0 and 1.0" := by
      dsimp only [checkTopP]
      exact if_neg hp
    simp [extract_inference_params, checkTemperature, checkTopK, hP]
  · have hR : checkRepetitionPenalty (some vr)
        = .error "repetition_penalty must be between 1.0 and 2.0" := by
      dsimp only [checkRepetitionPenalty]
      exact if_neg hr
    simp [extract_inference_params, checkTemperature, checkTopK, checkTopP, hR]
  · exact ⟨le_max_left _ _,
      max_le (by norm_num [MAX_EXAGGERATION]) (min_le_right _ _)⟩
  · exact ⟨le_max_left _ _, max_le (by norm_num) (min_le_left _ _)⟩
  · exact ⟨le_max_left _ _, max_le (by norm_num) (min_le_left _ _)⟩

theorem claim_C7_validation_asymmetry_witness :
    extract_inference_params ⟨some 5, none, none, none⟩
        = .error "temperature must be between 0.1 and 2.0"
    ∧ extract_inference_params ⟨none, some 0, none, none⟩
        = .error "top_k must be between 1 and 200"
    ∧ extract_inference_params ⟨none, none, some 2, none⟩
        = .error "top_p must be between 0.0 and 1.0"
    ∧ extract_inference_params ⟨none, none, none, some 0⟩
        = .error "repetition_penalty must be between 1.0 and 2.0"
    ∧ (0 ≤ (extract_chatterbox_params
            ⟨some 100, some 100, some 100, none, none, none⟩).exaggeration
        ∧ (extract_chatterbox_params
            ⟨some 100, some 100, some 100, none, none, none⟩).exaggeration
          ≤ MAX_EXAGGERATION)
    ∧ (0 ≤ (extract_chatterbox_params
            ⟨some 100, some 100, some 100, none, none, none⟩).cfg_weight
        ∧ (extract_chatterbox_params
            ⟨some 100, some 100, some 100, none, none, none⟩).cfg_weight ≤ 1)
    ∧ (1/20 ≤ (extract_chatterbox_params
            ⟨some 100, some 100, some 100, none, none, none⟩).temperature
        ∧ (extract_chatterbox_params
            ⟨some 100, some 100, some 100, none, none, none⟩).temperature
          ≤ 2) :=
  claim_C7_validation_asymmetry 5 0 2 0
    ⟨some 100, some 100, some 100, none, none, none⟩
    (by norm_num) (by norm_num [truncQ]) (by norm_num) (by norm_num)

/-! ## SSML segment compiler (src/app/services/ssml_parser.py)

String scalars are processed as character lists so that every parsing
function evaluates inside the kernel; `trimL`/`lowerL` mirror the Python
`str.strip()` / `str.lower()` calls on the ASCII inputs the parser sees. -/

def trimL (l : List Char) : List Char :=
  ((l.dropWhile Char.isWhitespace).reverse.dropWhile Char.isWhitespace).reverse

def lowerL (l : List Char) : List Char := l.map Char.toLower

/-- `strip().lower()` applied to a string scalar. -/
def normTL (s : String) : List Char := lowerL (trimL s.toList)

def endsWithL (l suf : List Char) : Bool := suf == l.drop (l.length - suf.length)

def startsWithL (l pre : List Char) : Bool := pre == l.take pre.length

def dropRightL (l : List Char) (n : ℕ) : List Char := l.take (l.length - n)

def digitsVal (l : List Char) : ℕ :=
  l.foldl (fun a c => 10 * a + (c.toNat - 48)) 0

def digitsVal? (l : List Char) : Option ℕ :=
  if l ≠ [] ∧ l.all Char.isDigit then some (digitsVal l) else none

/-- Python `int(string)`: optional sign then decimal digits (surrounding
whitespace stripped); underscore separators and non-decimal literals are
not modelled. -/
def pyIntL? (l : List Char) : Option ℤ :=
  match trimL l with
  | '+' :: r => (digitsVal? r).map (fun n => (n : ℤ))
  | '-' :: r => (digitsVal? r).map (fun n => -(n : ℤ))
  | r => (digitsVal? r).map (fun n => (n : ℤ))

def pyFloatCore? (l : List Char) : Option ℚ :=
  let ip := l.takeWhile Char.isDigit
  let rest := l.drop ip.length
  match rest with
  | [] => if ip = [] then none else some ((digitsVal ip : ℚ))
  | '.' :: fp =>
      if fp.all Char.isDigit ∧ ¬ (ip = [] ∧ fp = []) then
        some ((digitsVal ip : ℚ) + (digitsVal fp : ℚ) / 10 ^ fp.length)
      else none
  | _ => none

/-- Python `float(string)` on plain decimal forms: optional sign, digits
with an optional fractional part; exponents, infinities and nan are not
modelled. -/
def pyFloatL? (l : List Char) : Option ℚ :=
  match trimL l with
  | '+' :: r => pyFloatCore? r
  | '-' :: r => (pyFloatCore? r).map (fun q => -q)
  | r => pyFloatCore? r

/-- `_parse_time_ms`: ms and s suffixes, bare integers in ms, and a 500 ms
fallback for a bare non-integer; a suffixed form whose numeric part does
not parse raises a Python ValueError, modelled as `.error`. -/
def parse_time_ms (s : String) : Except String ℤ :=
  let t := normTL s
  if endsWithL t ['m', 's'] then
    match pyIntL? (dropRightL t 2) with
    | some n => .ok n
    | none => .error "invalid literal for int"
  else if endsWithL t ['s'] then
    match pyFloatL? (dropRightL t 1) with
    | some q => .ok (truncQ (q * 1000))
    | none => .error "could not convert string to float"
  else
    match pyIntL? t with
    | some n => .ok n
    | none => .ok 500

def ratePairs : List (List Char × ℚ) :=
  [("x-slow".toList, 1/2), ("slow".toList, 3/4), ("medium".toList, 1),
   ("fast".toList, 5/4), ("x-fast".toList, 3/2), ("default".toList, 1)]

/-- `_parse_rate`: keyword table, percent form, else a bare float with a
1.0 fallback when unparsable; a percent form with a bad number raises. -/
def parse_rate (s : String) : Except String ℚ :=
  let t := normTL s
  match ratePairs.lookup t with
  | some v => .ok v
  | none =>
    if endsWithL t ['%'] then
      match pyFloatL? (dropRightL t 1) with
      | some q => .ok (q / 100)
      | none => .error "could not convert string to float"
    else
      match pyFloatL? t with
      | some q => .ok q
      | none => .ok 1

def pitchPairs : List (List Char × ℚ) :=
  [("x-low".toList, -6), ("low".toList, -3), ("medium".toList, 0),
   ("high".toList, 3), ("x-high".toList, 6), ("default".toList, 0)]

/-- The Python regex match of `([+-]?\d+(?:\.\d+)?)\s*st` at the start of
the string (trailing characters after `st` are allowed by `re.match`). -/
def pitchReMatch (l : List Char) : Option ℚ :=
  let su : ℚ × List Char :=
    match l with
    | '+' :: r => (1, r)
    | '-' :: r => (-1, r)
    | r => (1, r)
  let ip := su.2.takeWhile Char.isDigit
  if ip = [] then none
  else
    let rest := su.2.drop ip.length
    let vr : ℚ × List Char :=
      match rest with
      | '.' :: r =>
          let fp := r.takeWhile Char.isDigit
          if fp = [] then ((digitsVal ip : ℚ), rest)
          else ((digitsVal ip : ℚ) + (digitsVal fp : ℚ) / 10 ^ fp.length,
                r.drop fp.length)
      | _ => ((digitsVal ip : ℚ), rest)
    match vr.2.dropWhile Char.isWhitespace with
    | 's' :: 't' :: _ => some (su.1 * vr.1)
    | _ => none

/-- `_parse_pitch`: keyword table, then semitone notation, then 0. -/
def parse_pitch (s : String) : ℚ :=
  let t := normTL s
  match pitchPairs.lookup t with
  | some v => v
  | none =>
      match pitchReMatch t with
      | some q => q
      | none => 0

def volPairs : List (List Char × ℚ) :=
  [("silent".toList, -40), ("x-soft".toList, -24), ("soft".toList, -20),
   ("medium".toList, -16), ("loud".toList, -12), ("x-loud".toList, -8),
   ("default".toList, -16)]

/-- `_parse_volume`: keyword table with a fixed -16 fallback. -/
def parse_volume (s : String) : ℚ := (volPairs.lookup (normTL s)).getD (-16)

def emphasisPairs : List (List Char × String) :=
  [("strong".toList, "speak with strong emphasis and conviction"),
   ("moderate".toList, "speak with moderate emphasis"),
   ("reduced".toList, "speak softly and understated"),
   ("none".toList, "")]

/-- `_emphasis_to_instruct`. -/
def emphasis_to_instruct (level : String) : String :=
  (emphasisPairs.lookup (normTL level)).getD "speak with emphasis"

/-- The traversal context `{speaker, language, instruct, prosody}`. -/
structure Ctx where
  speaker : Option String
  language : Option String
  instruct : Option String
  prosody : PPOptions
deriving DecidableEq, Repr

def initCtx : Ctx := ⟨none, none, none, emptyPP⟩

/-- A compiled segment: speech with a snapshotted context, or a break. -/
inductive Segment where
  | speech (text : String) (speaker : Option String)
           (language : Option String) (instruct : Option String)
           (prosody : PPOptions)
  | brk (duration_ms : ℤ)
deriving DecidableEq, Repr

/-- An `xml.etree` element: tag, attributes, direct text, children in
document order, trailing text after the element. -/
inductive XElem where
  | mk (tag : String) (attrs : List (String × String)) (text : Option String)
       (children : List XElem) (tail : Option String)

def XElem.tailOf : XElem → Option String
  | .mk _ _ _ _ t => t

/-- `element.get(key)` over the attribute dictionary. -/
def getAttr (attrs : List (String × String)) (k : String) : Option String :=
  attrs.lookup k

/-- `element.get(key)` under a Python truthiness guard: an absent key and
an empty value both fail the guard. -/
def attrTruthy (attrs : List (String × String)) (k : String) :
    Option String :=
  match attrs.lookup k with
  | some v => if v = "" then none else some v
  | none => none

/-- `element.text and element.text.strip()`: the stripped text when the
raw value is present and not whitespace-only. -/
def strippedText : Option String → Option String
  | none => none
  | some t =>
      if trimL t.toList = [] then none else some (String.mk (trimL t.toList))

/-- Snapshot the current context by value into a Speech segment. -/
def mkSpeech (t : String) (ctx : Ctx) : Segment :=
  .speech t ctx.speaker ctx.language ctx.instruct ctx.prosody

/-- The voice branch: `{**context, 'speaker': element.get('name',
context.get('speaker'))}`. -/
def voiceCtx (attrs : List (String × String)) (ctx : Ctx) : Ctx :=
  match getAttr attrs "name" with
  | some n => ⟨some n, ctx.language, ctx.instruct, ctx.prosody⟩
  | none => ctx

def prosodySpeed (attrs : List (String × String)) (p : PPOptions) :
    Except String PPOptions :=
  match attrTruthy attrs "rate" with
  | none => .ok p
  | some r =>
      match parse_rate r with
      | .error e => .error e
      | .ok v => .ok ⟨p.pitch_shift, some v, p.volume_normalize, p.sample_rate⟩

def prosodyPitch (attrs : List (String × String)) (p : PPOptions) :
    PPOptions :=
  match attrTruthy attrs "pitch" with
  | none => p
  | some v => ⟨some (parse_pitch v), p.speed, p.volume_normalize, p.sample_rate⟩

def prosodyVolume (attrs : List (String × String)) (p : PPOptions) :
    PPOptions :=
  match attrTruthy attrs "volume" with
  | none => p
  | some v =>
      ⟨p.pitch_shift, p.speed, some (.num (parse_volume v)), p.sample_rate⟩

/-- The prosody branch: copy the inherited prosody dictionary and override
rate / pitch / volume from truthy attributes. -/
def prosodyCtx (attrs : List (String × String)) (ctx : Ctx) :
    Except String Ctx :=
  match prosodySpeed attrs ctx.prosody with
  | .error e => .error e
  | .ok p1 =>
      .ok ⟨ctx.speaker, ctx.language, ctx.instruct,
           prosodyVolume attrs (prosodyPitch attrs p1)⟩

/-- The emphasis branch: map the level to an instruct hint; an empty hint
leaves the context untouched. -/
def emphasisCtx (attrs : List (String × String)) (ctx : Ctx) : Ctx :=
  let level := (getAttr attrs "level").getD "moderate"
  let ins := emphasis_to_instruct level
  if ins = "" then ctx else ⟨ctx.speaker, ctx.language, some ins, ctx.prosody⟩

/-- The context derivation of `_process_element` for a non-break tag: a new
context value is derived, the parent context is never mutated. -/
def deriveCtx (tag : String) (attrs : List (String × String)) (ctx : Ctx) :
    Except String Ctx :=
  let c1 := if tag = "voice" then voiceCtx attrs ctx else ctx
  match (if tag = "prosody" then prosodyCtx attrs c1 else .ok c1) with
  | .error e => .error e
  | .ok c2 => .ok (if tag = "emphasis" then emphasisCtx attrs c2 else c2)

mutual
/-- `_process_element(element, context)`: break short-circuit, context
derivation, direct text with the current context, then the children in
document order, each followed by its tail text emitted with the parent
context. -/
def processElement (e : XElem) (ctx : Ctx) : Except String (List Segment) :=
  match e with
  | .mk tag0 attrs text children _ =>
    let tag := lowerL tag0.toList
    if tag = "break".toList then
      match parse_time_ms ((getAttr attrs "time").getD "500ms") with
      | .error err => .error err
      | .ok ms => .ok [.brk ms]
    else
      match deriveCtx (String.mk tag) attrs ctx with
      | .error err => .error err
      | .ok ctx2 =>
        let textSegs := match strippedText text with
          | some t => [mkSpeech t ctx2]
          | none => ([] : List Segment)
        match processChildren children ctx2 with
        | .error err => .error err
        | .ok rest => .ok (textSegs ++ rest)

/-- The `for child in element` loop of `_process_element`. -/
def processChildren (cs : List XElem) (ctx : Ctx) :
    Except String (List Segment) :=
  match cs with
  | [] => .ok []
  | c :: rest =>
    match processElement c ctx with
    | .error err => .error err
    | .ok segs =>
      let tailSegs := match strippedText c.tailOf with
        | some t => [mkSpeech t ctx]
        | none => ([] : List Segment)
      match processChildren rest ctx with
      | .error err => .error err
      | .ok more => .ok (segs ++ tailSegs ++ more)
end

/-- The wrapping step of `parse_ssml` before the external XML parse. -/
def wrapSpeak (s : String) : String :=
  let t := trimL s.toList
  if startsWithL (lowerL t) "<speak".toList then String.mk t
  else "<speak>" ++ String.mk t ++ "</speak>"

/-- `parse_ssml` after the external `xml.etree` parse produced `root`. -/
def parse_ssml_tree (root : XElem) : Except String (List Segment) :=
  processElement root initCtx

/-- Modelled from the spec: the external XML parser applied to the wrapped
document `<speak>t</speak>` when t is plain text containing no markup
characters yields a single `speak` element whose direct text is t. -/
def plainTextDoc (s : String) : XElem :=
  .mk "speak" [] (some (String.mk (trimL s.toList))) [] none

theorem get_zero_of_prefix (v u r : List Char) (hr : v ++ r = u)
    (hl : 0 < v.length) (hu : 0 < u.length) :
    v.get ⟨0, hl⟩ = u.get ⟨0, hu⟩ := by
  cases v with
  | nil => simp at hl
  | cons a v2 =>
      cases u with
      | nil => simp at hu
      | cons b u2 =>
          have hab : a = b := by
            have := congrArg List.head? hr
            simpa using this
          simp [hab]

theorem trimL_eq_rdrop (m : List Char) :
    trimL m = List.rdropWhile Char.isWhitespace
      (m.dropWhile Char.isWhitespace) := rfl

/-- Stripping is idempotent: `_parse_time_ms` and the speech-text branch
re-strip values the route already stripped. -/
theorem trimL_idem (l : List Char) : trimL (trimL l) = trimL l := by
  rw [trimL_eq_rdrop, trimL_eq_rdrop]
  set u := l.dropWhile Char.isWhitespace with hu
  set v := List.rdropWhile Char.isWhitespace u with hv
  have hdw : v.dropWhile Char.isWhitespace = v := by
    rw [List.dropWhile_eq_self_iff]
    intro hl
    have hpre : v <+: u := List.rdropWhile_prefix _ _
    have hulen : 0 < u.length := by
      have := hpre.length_le
      omega
    have hget : v.get ⟨0, hl⟩ = u.get ⟨0, hulen⟩ := by
      rcases hpre with ⟨r, hr⟩
      exact get_zero_of_prefix v u r hr hl hulen
    rw [hget]
    exact List.dropWhile_get_zero_not _ _ _
  rw [hdw, hv, List.rdropWhile_idempotent]

/-- A string ending in the ms unit also ends in the s unit, so the branch
order of `_parse_time_ms` is the only thing routing between them. -/
theorem ends_ms_imp_ends_s (t : List Char)
    (h : endsWithL t ['m', 's'] = true) : endsWithL t ['s'] = true := by
  rw [endsWithL, beq_iff_eq] at h ⊢
  have h2 : ['m', 's'] = List.drop (t.length - 2) t := h
  have hlen2 : 2 ≤ t.length := by
    by_contra hc
    push_neg at hc
    have hcong := congrArg List.length h2
    rw [List.length_drop] at hcong
    simp at hcong
    omega
  have h1 : t.drop (t.length - 1) = List.drop 1 (t.drop (t.length - 2)) := by
    rw [List.drop_drop]
    congr 1
    omega
  show ['s'] = List.drop (t.length - 1) t
  rw [h1, ← h2]
  rfl

/-- claim C5 counterexample: the duration string "fastms" carries the ms
unit with a non-numeric magnitude; `_parse_time_ms` raises a ValueError
(modelled as `.error`) instead of falling back to the 500 ms default, and
the error propagates out of the break element and fails the document. -/
theorem claim_C5_break_duration_counterexample :
    parse_time_ms "fastms" = .error "invalid literal for int"
    ∧ processElement (.mk "break" [("time", "fastms")] none [] none) initCtx
        = .error "invalid literal for int" := ⟨rfl, rfl⟩

/-- claim C5 (amended): break durations support millisecond and second
units and bare integer milliseconds, and a duration string with no unit
suffix that is not an integer falls back to the fixed 500 ms default; but
a duration string ending in a unit whose numeric part is unparsable raises
an error that fails the whole document (see the counterexample). -/
theorem claim_C5_break_duration_amended (s : String)
    (h : endsWithL (normTL s) ['s'] = false) :
    parse_time_ms s = .ok ((pyIntL? (normTL s)).getD 500)
    ∧ parse_time_ms "500ms" = .ok 500
    ∧ parse_time_ms "1s" = .ok 1000
    ∧ parse_time_ms "2.5s" = .ok 2500 := by
  refine ⟨?_, rfl, ?_, ?_⟩
  · have hms : endsWithL (normTL s) ['m', 's'] = false := by
      cases hx : endsWithL (normTL s) ['m', 's'] with
      | false => rfl
      | true => exact absurd (ends_ms_imp_ends_s _ hx) (by simp [h])
    simp only [parse_time_ms, hms, h, Bool.false_eq_true, if_false]
    cases hp : pyIntL? (normTL s) with
    | none => simp
    | some n => simp
  · have h0 : parse_time_ms "1s" = .ok (truncQ ((1 : ℚ) * 1000)) := rfl
    rw [h0]
    norm_num [truncQ]
  · have h0 : parse_time_ms "2.5s"
        = .ok (truncQ (((2 : ℚ) + (5 : ℚ) / 10 ^ (1 : ℕ)) * 1000)) := rfl
    rw [h0]
    norm_num [truncQ]

theorem claim_C5_break_duration_amended_witness :
    endsWithL (normTL "oops!") ['s'] = false
    ∧ (parse_time_ms "oops!" = .ok ((pyIntL? (normTL "oops!")).getD 500)
       ∧ parse_time_ms "500ms" = .ok 500
       ∧ parse_time_ms "1s" = .ok 1000
       ∧ parse_time_ms "2.5s" = .ok 2500) :=
  ⟨rfl, claim_C5_break_duration_amended "oops!" rfl⟩

/-- claim C6: sibling context never leaks.  Compiling the two-voice
document yields segments with speakers A and B respectively (the other
context fields still those of the enclosing context), and the tail text of
a child is emitted with the parent context, not the child context. -/
theorem claim_C6_sibling_context_no_leak (ctx : Ctx) :
    processElement (.mk "speak" [] none
      [.mk "voice" [("name", "A")] (some "x") [] none,
       .mk "voice" [("name", "B")] (some "y") [] none] none) ctx
      = .ok [.speech "x" (some "A") ctx.language ctx.instruct ctx.prosody,
             .speech "y" (some "B") ctx.language ctx.instruct ctx.prosody]
    ∧ processElement (.mk "speak" [] none
      [.mk "voice" [("name", "A")] (some "x") [] (some " tail ")] none)
        initCtx
      = .ok [.speech "x" (some "A") none none emptyPP,
             .speech "tail" none none none emptyPP] := ⟨rfl, rfl⟩

/-- claim C9: an input whose stripped text does not start with "<speak"
(case-insensitive) is wrapped in a speak root before the XML parse, and a
markup-free nonempty plain text compiles to exactly one Speech segment
with speaker, language and instruct all absent and empty prosody. -/
theorem claim_C9_plain_text_wrap_and_single_segment (s : String)
    (hnolt : ¬ '<' ∈ s.toList) (hnoamp : ¬ '&' ∈ s.toList)
    (hw : startsWithL (lowerL (trimL s.toList)) "<speak".toList = false)
    (hne : trimL s.toList ≠ []) :
    wrapSpeak s = "<speak>" ++ String.mk (trimL s.toList) ++ "</speak>"
    ∧ parse_ssml_tree (plainTextDoc s)
        = .ok [.speech (String.mk (trimL s.toList)) none none none emptyPP]
    := by
  constructor
  · simp only [wrapSpeak, hw, Bool.false_eq_true, if_false]
  · have hst : strippedText (some (String.mk (trimL s.toList)))
        = some (String.mk (trimL s.toList)) := by
      simp only [strippedText]
      have hts : (String.mk (trimL s.toList)).toList = trimL s.toList := rfl
      rw [hts, trimL_idem]
      rw [if_neg hne]
    rw [parse_ssml_tree, plainTextDoc, processElement]
    simp only [hst]
    rfl

theorem claim_C9_plain_text_wrap_and_single_segment_witness :
    (¬ '<' ∈ "Hello world".toList) ∧ (¬ '&' ∈ "Hello world".toList)
    ∧ startsWithL (lowerL (trimL "Hello world".toList)) "<speak".toList
        = false
    ∧ trimL "Hello world".toList ≠ []
    ∧ (wrapSpeak "Hello world"
        = "<speak>" ++ String.mk (trimL "Hello world".toList) ++ "</speak>"
      ∧ parse_ssml_tree (plainTextDoc "Hello world")
        = .ok [.speech (String.mk (trimL "Hello world".toList))
                none none none emptyPP]) :=
  ⟨by decide, by decide, by decide, by decide,
   claim_C9_plain_text_wrap_and_single_segment "Hello world"
     (by decide) (by decide) (by decide) (by decide)⟩

/-! ## Dialogue assembly (src/app/routes/tts.py, `tts_dialogue`)

The per-segment loop of the dialogue endpoint.  The external synthesis
call (`tts_service.generate_custom`) and the cross-rate resampler are
parameters; the loop state carries the collected audio pieces and the
sample rate established by the first synthesized speech segment.  The
silence gap between segments is a nonnegative count of milliseconds. -/

structure DiaState where
  all_audio : List (List ℚ)
  sample_rate : Option ℕ
deriving DecidableEq, Repr

/-- The external synthesis call: text, language, speaker, instruct and
per-segment prosody options to a waveform and its sample rate. -/
def GenFn : Type :=
  String → String → String → Option String → Option PPOptions → List ℚ × ℕ

/-- The external resampler used when a segment comes back at a different
rate than the established one. -/
def ResampleFn : Type := List ℚ → ℕ → ℕ → List ℚ

def trivialGen : GenFn := fun _ _ _ _ _ => ([], 24000)

def trivialResample : ResampleFn := fun w _ _ => w

/-- Python truthiness of the per-segment prosody dictionary. -/
def PPOptions.isEmptyOpts (p : PPOptions) : Bool :=
  p.pitch_shift.isNone && p.speed.isNone && p.volume_normalize.isNone
    && p.sample_rate.isNone

/-- `seg.get(key) or default`: an absent or empty value falls back. -/
def orDefault (v : Option String) (d : String) : String :=
  match v with
  | some s => if s = "" then d else s
  | none => d

/-- `if silence_gap_ms > 0: all_audio.append(np.zeros(gap_samples))`. -/
def gapSilence (sr : ℕ) (gapMs : ℕ) : List (List ℚ) :=
  if 0 < gapMs then [List.replicate (sr * gapMs / 1000) (0 : ℚ)] else []

/-- One iteration of the `for seg in segments` loop: a break contributes
silence only once a sample rate is known; a speech segment is stripped,
length-validated, synthesized, resampled onto the established rate if
needed, and followed by the silence gap. -/
def dialogueStep (gen : GenFn) (resample : ResampleFn)
    (defSpeaker defLang : String) (gapMs : ℕ)
    (st : DiaState) (seg : Segment) : Except String DiaState :=
  match seg with
  | .brk d =>
      match st.sample_rate with
      | some sr =>
          if d < 0 then .error "negative dimensions are not allowed"
          else .ok ⟨st.all_audio
                     ++ [List.replicate (sr * d.toNat / 1000) (0 : ℚ)],
                    some sr⟩
      | none => .ok st
  | .speech text speaker language instruct prosody =>
      let t := String.mk (trimL text.toList)
      if t.toList = [] then .ok st
      else if MAX_TEXT_LENGTH < t.length then
        .error "Segment error: text exceeds maximum length of 5000 characters"
      else
        let pp := if PPOptions.isEmptyOpts prosody then none else some prosody
        let g := gen t (orDefault language defLang)
          (orDefault speaker defSpeaker) instruct pp
        match st.sample_rate with
        | none => .ok ⟨st.all_audio ++ [g.1] ++ gapSilence g.2 gapMs, some g.2⟩
        | some sr0 =>
            let w := if g.2 ≠ sr0 then resample g.1 g.2 sr0 else g.1
            .ok ⟨st.all_audio ++ [w] ++ gapSilence sr0 gapMs, some sr0⟩

/-- The whole segment loop with its early error returns. -/
def dialogueRun (gen : GenFn) (resample : ResampleFn)
    (defSpeaker defLang : String) (gapMs : ℕ)
    (segs : List Segment) (st : DiaState) : Except String DiaState :=
  match segs with
  | [] => .ok st
  | s :: rest =>
      match dialogueStep gen resample defSpeaker defLang gapMs st s with
      | .error e => .error e
      | .ok st2 => dialogueRun gen resample defSpeaker defLang gapMs rest st2

/-- claim C10: in the dialogue endpoint a break before any synthesized
speech contributes no silence (no sample rate is known yet, so it is
skipped and the state is unchanged, hence a whole prefix of breaks is a
no-op), while a break after at least one speech segment appends silence of
the requested duration at the established rate. -/
theorem claim_C10_break_before_speech_no_silence (gen : GenFn)
    (resample : ResampleFn) (defSpeaker defLang : String) (gapMs : ℕ)
    (audio : List (List ℚ)) (sr : ℕ) (d : ℤ) (durs : List ℤ)
    (rest : List Segment) (hd : 0 ≤ d) :
    dialogueStep gen resample defSpeaker defLang gapMs ⟨audio, none⟩ (.brk d)
        = .ok ⟨audio, none⟩
    ∧ dialogueStep gen resample defSpeaker defLang gapMs ⟨audio, some sr⟩
        (.brk d)
        = .ok ⟨audio ++ [List.replicate (sr * d.toNat / 1000) (0 : ℚ)],
               some sr⟩
    ∧ dialogueRun gen resample defSpeaker defLang gapMs
        (durs.map Segment.brk ++ rest) ⟨[], none⟩
        = dialogueRun gen resample defSpeaker defLang gapMs rest ⟨[], none⟩
    := by
  refine ⟨rfl, ?_, ?_⟩
  · rw [dialogueStep]
    dsimp only
    rw [if_neg (by omega)]
  · induction durs with
    | nil => rfl
    | cons d0 ds ih =>
        simp only [List.map_cons, List.cons_append]
        rw [dialogueRun]
        exact ih

theorem claim_C10_break_before_speech_no_silence_witness :
    (0 : ℤ) ≤ 500
    ∧ (dialogueStep trivialGen trivialResample "Ryan" "English" 300
          ⟨[], none⟩ (.brk 500) = .ok ⟨[], none⟩
      ∧ dialogueStep trivialGen trivialResample "Ryan" "English" 300
          ⟨[], some 1000⟩ (.brk 500)
          = .ok ⟨[] ++ [List.replicate ((1000 * (500 : ℤ).toNat) / 1000)
                          (0 : ℚ)], some 1000⟩
      ∧ dialogueRun trivialGen trivialResample "Ryan" "English" 300
          ([(100 : ℤ), 200].map Segment.brk ++ []) ⟨[], none⟩
          = dialogueRun trivialGen trivialResample "Ryan" "English" 300 []
              ⟨[], none⟩) :=
  ⟨by norm_num,
   claim_C10_break_before_speech_no_silence trivialGen trivialResample
     "Ryan" "English" 300 [] 1000 500 [100, 200] [] (by norm_num)⟩

end PyVS
